import Mathlib

/-!
Verification development for the performance-goals generation script
(`scripts/generate_performance_goals.py`).

The script is a linear pipeline: load two Excel sheets (with header
validation), call a text-generation service once per (role, category)
pair, post-process each response, assemble a row-per-role /
column-per-category table, and write it to a spreadsheet with fixed
column widths.

The shallow embedding below models:
  * strings as Lean `String` / `List Char` (Python `str.strip`, `str.lower`
    and `str.replace` are modelled on `List Char`; the whitespace set and
    lowercasing are the ASCII fragments, which cover all inputs considered
    here);
  * the filesystem as a partial map `String → Option Sheet`, where `Sheet`
    is the parsed first worksheet (header row plus data rows, cells as
    strings);
  * the environment as a partial map `String → Option String`;
  * the remote generation service as an oracle
    `gen : Nat → Nat → Except String String` giving, for the call made at
    role index `i` and category index `j`, either the returned text or the
    message of the exception the call raised;
  * Python dicts of lists as ordered association lists with
    insert-or-overwrite and per-key append;
  * `pandas.DataFrame` construction as a length check followed by a
    transpose into rows;
  * process-level behaviour (exit code, stderr, whether the output file was
    produced) as an explicit `ProgramResult` record.
-/

/-- Whitespace test of Python `str.strip` (ASCII fragment: space, tab,
newline, carriage return, vertical tab, form feed). -/
def isPySpace (c : Char) : Bool :=
  c == ' ' || c == '\t' || c == '\n' || c == '\r' || c == Char.ofNat 11 || c == Char.ofNat 12

/-- Python `str.strip` on a list of characters: drop leading and trailing
whitespace. -/
def pyStrip (s : List Char) : List Char :=
  List.rdropWhile isPySpace (List.dropWhile isPySpace s)

/-- The delimiter pattern `"\n---\n"` used by `format_goals_for_excel`. -/
def delim : List Char := ['\n', '-', '-', '-', '\n']

/-- The replacement `"\n\n"` (paragraph break). -/
def dblNl : List Char := ['\n', '\n']

/-- Python `str.replace`: scan left to right, replacing each leftmost,
non-overlapping occurrence of `pat` by `repl`.  The fuel argument bounds
the number of scan steps; it is instantiated with the length of the
string, which suffices for a non-empty pattern. -/
def pyReplaceAux (pat repl : List Char) : Nat → List Char → List Char
  | _, [] => []
  | 0, s => s
  | fuel+1, c :: cs =>
    if pat.isPrefixOf (c :: cs) then repl ++ pyReplaceAux pat repl fuel ((c :: cs).drop pat.length)
    else c :: pyReplaceAux pat repl fuel cs

/-- Python `s.replace(pat, repl)` for a non-empty `pat`. -/
def pyReplace (s pat repl : List Char) : List Char :=
  pyReplaceAux pat repl s.length s

/-- Embedding of `format_goals_for_excel`: replace the separator `"\n---\n"`
with a double line break, then strip leading/trailing whitespace. -/
def format_goals_for_excel (goals_text : String) : String :=
  String.mk (pyStrip (pyReplace goals_text.data delim dblNl))

/-- Occurrence test: `containsDelim s = true` iff `"\n---\n"` occurs as a
contiguous substring of `s`. -/
def containsDelim : List Char → Bool
  | [] => false
  | c :: cs => delim.isPrefixOf (c :: cs) || containsDelim cs

/-- Splitting on the delimiter (spec-side companion of `pyReplace`): the
list of maximal delimiter-free pieces, scanning left to right with
non-overlapping matches.  Fuel as in `pyReplaceAux`. -/
def splitOnDelimAux : Nat → List Char → List (List Char)
  | _, [] => [[]]
  | 0, s => [s]
  | fuel+1, c :: cs =>
    if delim.isPrefixOf (c :: cs) then [] :: splitOnDelimAux fuel ((c :: cs).drop delim.length)
    else
      match splitOnDelimAux fuel cs with
      | [] => [[c]]
      | t :: ts => (c :: t) :: ts

/-- Split a string at every (leftmost, non-overlapping) occurrence of
`"\n---\n"`. -/
def splitOnDelim (s : List Char) : List (List Char) :=
  splitOnDelimAux s.length s

/-- Formatter as worded by the spec: replace every occurrence of the
delimiter pattern with a paragraph break (render the delimiter-separated
pieces joined by `"\n\n"`), then trim surrounding whitespace, and do
nothing else. -/
def format_goals_spec (goals_text : String) : String :=
  String.mk (pyStrip (List.intercalate dblNl (splitOnDelim goals_text.data)))

/-- Parsed first worksheet of a workbook: header names and data rows (cells
as strings). -/
structure Sheet where
  headers : List String
  rows : List (List String)
deriving DecidableEq

/-- Errors raised by `load_excel_data`: `FileNotFoundError` and the
`ValueError` used for a header-schema mismatch. -/
inductive LoadError where
  | fileNotFound (msg : String)
  | valueError (msg : String)
deriving DecidableEq

/-- Python `str(e)` for the two exception types above: the message. -/
def pyStrOfError : LoadError → String
  | .fileNotFound m => m
  | .valueError m => m

/-- Python `str.lower` (ASCII fragment). -/
def strLower (s : String) : String :=
  String.mk (s.data.map Char.toLower)

/-- Python `str.strip` on a `String`. -/
def pyStripStr (s : String) : String :=
  String.mk (pyStrip s.data)

/-- Python `repr` of a list of strings, as interpolated into the
schema-mismatch message by the f-string. -/
def pyListRepr (l : List String) : String :=
  "[" ++ String.intercalate ", " (l.map (fun s => String.singleton (Char.ofNat 39) ++ s ++ String.singleton (Char.ofNat 39))) ++ "]"

/-- The message of the `ValueError` raised on a header-schema mismatch. -/
def schemaErrorMsg (expected found : List String) : String :=
  "Expected columns " ++ pyListRepr expected ++ " but found " ++ pyListRepr found

/-- Expected headers of the categories workbook. -/
def catColumns : List String := ["Category", "Description", "Number_of_Goals"]

/-- Expected headers of the roles workbook. -/
def roleColumns : List String := ["Role", "Job Description"]

/-- Embedding of `load_excel_data`: fail with `FileNotFoundError` if the
path does not exist; otherwise strip the header names, compare the first
`N` of them case-insensitively against the expected names, fail with a
`ValueError` naming both lists on mismatch, and on success rename the
first `N` columns to the canonical names and discard the columns beyond
`N` (`df.iloc[:, :N]`). -/
def load_excel_data (fs : String → Option Sheet) (file_path : String)
    (expected_columns : List String) : Except LoadError Sheet :=
  match fs file_path with
  | none => .error (.fileNotFound ("File not found: " ++ file_path))
  | some df =>
    let cols := df.headers.map pyStripStr
    let actual_cols := (cols.take expected_columns.length).map strLower
    let expected_cols_lower := expected_columns.map strLower
    if actual_cols ≠ expected_cols_lower then
      .error (.valueError (schemaErrorMsg expected_columns (cols.take expected_columns.length)))
    else
      .ok ⟨expected_columns, df.rows.map (fun r => r.take expected_columns.length)⟩

/-- Category record (row of the categories sheet): `Category`,
`Description`, `Number_of_Goals`.  The goal count is only interpolated
into the prompt, so it is kept as the raw cell. -/
structure CategoryRow where
  category : String
  description : String
  number_of_goals : String
deriving DecidableEq

/-- Role record (row of the roles sheet): `Role`, `Job Description`. -/
structure RoleRow where
  role : String
  job_description : String
deriving DecidableEq

/-- Default role record, used only as `getD` default in statements. -/
def dRole : RoleRow := ⟨"", ""⟩

/-- Row of the categories sheet as a `CategoryRow` (the loader guarantees
three columns). -/
def toCategoryRow (r : List String) : CategoryRow :=
  ⟨r.getD 0 "", r.getD 1 "", r.getD 2 ""⟩

/-- Row of the roles sheet as a `RoleRow`. -/
def toRoleRow (r : List String) : RoleRow :=
  ⟨r.getD 0 "", r.getD 1 ""⟩

/-- The in-memory output table `output_data`: a Python dict from column
name to list of cell values, modelled as an ordered association list
(Python dicts preserve insertion order; keys are unique). -/
abbrev Table := List (String × List String)

/-- Python `d[k] = v`: overwrite in place if the key is present, else
append a new entry at the end. -/
def dictSet (d : Table) (k : String) (v : List String) : Table :=
  if d.any (fun p => p.1 == k) then d.map (fun p => if p.1 == k then (k, v) else p)
  else d ++ [(k, v)]

/-- Python `d[k].append(x)` (the key is always present at the call sites
of the script). -/
def dictAppend (d : Table) (k : String) (x : String) : Table :=
  d.map (fun p => if p.1 == k then (p.1, p.2 ++ [x]) else p)

/-- Lines 139-146: `output_data = {"Role": [], "Job Description": []}`
followed by `output_data[category] = []` for each category. -/
def initTable (cats : List CategoryRow) : Table :=
  cats.foldl (fun d c => dictSet d c.category []) [("Role", []), ("Job Description", [])]

/-- Value stored in the cell for one generation call: the formatted goals
text on success, `"Error: " ++ str(e)` if the call raised. -/
def computeCell (r : Except String String) : String :=
  match r with
  | .ok t => format_goals_for_excel t
  | .error e => "Error: " ++ e

/-- Inner loop (lines 163-187): for each category, in order, append the
cell value for the current role to that category's column.  `g j` is the
outcome of the generation call for category index `j`. -/
def appendCells (g : Nat → Except String String) : Nat → List CategoryRow → Table → Table
  | _, [], d => d
  | j, c :: cs, d => appendCells g (j+1) cs (dictAppend d c.category (computeCell (g j)))

/-- Body of the outer loop (lines 152-187) for the role at index `i`:
append the role name and job description, then run the inner loop. -/
def processRole (gen : Nat → Nat → Except String String) (cats : List CategoryRow)
    (i : Nat) (d : Table) (r : RoleRow) : Table :=
  appendCells (gen i) 0 cats
    (dictAppend (dictAppend d "Role" r.role) "Job Description" r.job_description)

/-- Outer loop over the roles, keeping the running role index. -/
def buildRows (gen : Nat → Nat → Except String String) (cats : List CategoryRow) :
    Nat → List RoleRow → Table → Table
  | _, [], d => d
  | i, r :: rs, d => buildRows gen cats (i+1) rs (processRole gen cats i d r)

/-- The fully assembled `output_data` dict. -/
def build_output_data (gen : Nat → Nat → Except String String)
    (cats : List CategoryRow) (roles : List RoleRow) : Table :=
  buildRows gen cats 0 roles (initTable cats)

/-- Transpose of the column lists into `n` rows (row `i` holds the `i`-th
entry of every column). -/
def rowsOf : Nat → List (List String) → List (List String)
  | 0, _ => []
  | n+1, cols => cols.map (fun c => c.headD "") :: rowsOf n (cols.map List.tail)

/-- `pandas.DataFrame(output_data)`: fails if the per-key lists do not all
have the same length, otherwise yields the headers (dict order) and the
rows (the transpose of the columns). -/
def pdDataFrame (d : Table) : Except String (List String × List (List String)) :=
  match d with
  | [] => .ok ([], [])
  | p :: ps =>
    if ps.all (fun q => q.2.length == p.2.length) then
      .ok ((p :: ps).map Prod.fst, rowsOf p.2.length ((p :: ps).map Prod.snd))
    else .error "All arrays must be of the same length"

/-- Table assembly from loaded inputs: `pd.DataFrame(output_data)`. -/
def generate_table (gen : Nat → Nat → Except String String)
    (cats : List CategoryRow) (roles : List RoleRow) :
    Except String (List String × List (List String)) :=
  pdDataFrame (build_output_data gen cats roles)

/-- Column letter as computed at line 206: `chr(64 + idx)`. -/
def colChr (idx : Nat) : String :=
  String.singleton (Char.ofNat (64 + idx))

/-- Width assignments for the category columns (line 205-207): position
`idx` counted from 3 gets key `chr(64 + idx)` and width 50. -/
def widthAux : Nat → List CategoryRow → List (String × Nat)
  | _, [] => []
  | idx, _ :: cs => (colChr idx, 50) :: widthAux (idx+1) cs

/-- All column-width assignments made by the writer (lines 201-207):
`A ↦ 20` (Role), `B ↦ 40` (Job Description), then one width-50 entry per
category. -/
def columnWidths (cats : List CategoryRow) : List (String × Nat) :=
  [("A", 20), ("B", 40)] ++ widthAux 3 cats

/-- True spreadsheet column name for 1-based column index `n` (bijective
base-26 numeration: 1 ↦ A, …, 26 ↦ Z, 27 ↦ AA, …).  Fuel-indexed to keep
the definition structural. -/
def excelColumnNameAux : Nat → Nat → String
  | _, 0 => ""
  | 0, _ => ""
  | fuel+1, n => excelColumnNameAux fuel ((n-1)/26) ++ String.singleton (Char.ofNat (65 + (n-1) % 26))

/-- Spreadsheet column name of 1-based column index `n`. -/
def excelColumnName (n : Nat) : String :=
  excelColumnNameAux n n

/-- The two client configurations of lines 116-129. -/
inductive AuthMode where
  | apiKey (key : String)
  | foundry (base_url : Option String) (scope : Option String)
deriving DecidableEq

/-- Client initialisation (lines 114-129).  The `api_key` parameter of
`generate_performance_goals` is rebound at line 117 to
`os.environ.get("ANTHROPIC_API_KEY")` before any use, which the inner
`let` mirrors; the Python truthiness test treats `None` and `""` as
false. -/
def chooseAuth (env : String → Option String) (api_key : Option String) : AuthMode :=
  let api_key := env "ANTHROPIC_API_KEY"
  match api_key with
  | some k => if k == "" then .foundry (env "ANTHROPIC_FOUNDRY_BASE_URL") (env "ANTHROPIC_AZURE_AD_SCOPE")
              else .apiKey k
  | none => .foundry (env "ANTHROPIC_FOUNDRY_BASE_URL") (env "ANTHROPIC_AZURE_AD_SCOPE")

/-- Content of the written workbook: sheet data plus the column-width
assignments (text wrapping applies uniformly to every cell and carries no
data, so it is not recorded). -/
structure FinalOutput where
  headers : List String
  rows : List (List String)
  widths : List (String × Nat)
deriving DecidableEq

/-- Observable outcome of one process run. -/
structure ProgramResult where
  exitCode : Nat
  stderr : Option String
  outputWritten : Bool
  output : Option FinalOutput
deriving DecidableEq

/-- Embedding of `generate_performance_goals` after the two loads
succeeded: assemble the table and write the workbook.  A `pd.DataFrame`
failure propagates as an exception, before the output file is created. -/
def generate_after_load (gen : Nat → Nat → Except String String)
    (cats : List CategoryRow) (roles : List RoleRow) : Except String FinalOutput :=
  match pdDataFrame (build_output_data gen cats roles) with
  | .error e => .error e
  | .ok (hdrs, rows) => .ok ⟨hdrs, rows, columnWidths cats⟩

/-- Embedding of `generate_performance_goals` (lines 105-217): initialise
the client, load both inputs (each load may raise), then assemble and
write.  Exceptions are surfaced as `Except.error str(e)`. -/
def generate_performance_goals_model (env : String → Option String)
    (fs : String → Option Sheet) (gen : Nat → Nat → Except String String)
    (categories_file roles_file : String) (api_key : Option String) :
    Except String FinalOutput :=
  let _client := chooseAuth env api_key
  match load_excel_data fs categories_file catColumns with
  | .error e => .error (pyStrOfError e)
  | .ok catsSheet =>
    match load_excel_data fs roles_file roleColumns with
    | .error e => .error (pyStrOfError e)
    | .ok rolesSheet =>
      generate_after_load gen (catsSheet.rows.map toCategoryRow) (rolesSheet.rows.map toRoleRow)

/-- Embedding of `main` (lines 220-262): run the pipeline; on any
exception print `"\n✗ Error: <e>"` to stderr and exit 1 without having
created the output file; on success exit 0 with the file written. -/
def main_model (env : String → Option String) (fs : String → Option Sheet)
    (gen : Nat → Nat → Except String String)
    (categories_file roles_file : String) (api_key : Option String) : ProgramResult :=
  match generate_performance_goals_model env fs gen categories_file roles_file api_key with
  | .ok out => ⟨0, none, true, some out⟩
  | .error e => ⟨1, some ("\n✗ Error: " ++ e), false, none⟩

/-! Spec-side descriptions of the assembled table, used to state and prove
the structure claims.  These are worded from the spec ("rows = roles in
input order, columns = Role, Job Description, then the category names in
input order; cell (role, category) holds that role's formatted goal block
or an error marker") and proved equal to the embedded assembly. -/

/-- Header row as described by the spec. -/
def expectedHeaders (cats : List CategoryRow) : List String :=
  "Role" :: "Job Description" :: cats.map (fun c => c.category)

/-- Cells of one output row (one per category, in input order), for the
role at index `i`; `j` is the index of the first category of `cs`. -/
def cellRowAux (g : Nat → Except String String) : Nat → List CategoryRow → List String
  | _, [] => []
  | j, _ :: cs => computeCell (g j) :: cellRowAux g (j+1) cs

/-- Output rows as described by the spec: one per role, in input order;
`i` is the index of the first role of the list. -/
def expectedRowsAux (gen : Nat → Nat → Except String String) (cats : List CategoryRow) :
    Nat → List RoleRow → List (List String)
  | _, [] => []
  | i, r :: rs => (r.role :: r.job_description :: cellRowAux (gen i) 0 cats) :: expectedRowsAux gen cats (i+1) rs

/-- Column of cell values for category index `j`, over the roles `rs`
whose first element has index `i`. -/
def colFor (gen : Nat → Nat → Except String String) (j : Nat) : Nat → List RoleRow → List String
  | _, [] => []
  | i, _ :: rs => computeCell (gen i j) :: colFor gen j (i+1) rs

/-- Category columns (name paired with cell column), categories of `cs`
starting at category index `j`. -/
def catCols (gen : Nat → Nat → Except String String) (roles : List RoleRow) :
    Nat → List CategoryRow → Table
  | _, [] => []
  | j, c :: cs => (c.category, colFor gen j 0 roles) :: catCols gen roles (j+1) cs

/-- Category cell columns only, with explicit starting role index `i`. -/
def catColVals (gen : Nat → Nat → Except String String) (i : Nat) (rs : List RoleRow) :
    Nat → List CategoryRow → List (List String)
  | _, [] => []
  | j, _ :: cs => colFor gen j i rs :: catColVals gen i rs (j+1) cs

/-- What one pass of the inner loop appends to the column named `k`:
one cell per category row whose name is `k`, in order. -/
def cellsFor (g : Nat → Except String String) : Nat → List CategoryRow → String → List String
  | _, [], _ => []
  | j, c :: cs, k => (if c.category = k then [computeCell (g j)] else []) ++ cellsFor g (j+1) cs k

/-- What processing one role appends to the column named `k`. -/
def rowContrib (gen : Nat → Nat → Except String String) (cats : List CategoryRow)
    (i : Nat) (r : RoleRow) (k : String) : List String :=
  (if k = "Role" then [r.role] else []) ++
    (if k = "Job Description" then [r.job_description] else []) ++ cellsFor (gen i) 0 cats k

/-- What processing the roles `rs` (first index `i`) appends to the column
named `k`. -/
def rowsContrib (gen : Nat → Nat → Except String String) (cats : List CategoryRow) :
    Nat → List RoleRow → String → List String
  | _, [], _ => []
  | i, r :: rs, k => rowContrib gen cats i r k ++ rowsContrib gen cats (i+1) rs k

/-- Key list of the dict after the initialisation loop: `"Role"`,
`"Job Description"`, then the distinct category names in first-occurrence
order. -/
def insKeys : List String → List CategoryRow → List String
  | ks, [] => ks
  | ks, c :: cs => insKeys (if c.category ∈ ks then ks else ks ++ [c.category]) cs

/-- Keys of `initTable cats`, in order. -/
def keyList (cats : List CategoryRow) : List String :=
  insKeys ["Role", "Job Description"] cats

/-- Number of category rows named `k`. -/
def countName (cats : List CategoryRow) (k : String) : Nat :=
  (cats.filter (fun c => c.category = k)).length

/-- Number of values appended to the column named `k` while processing one
role. -/
def weightOf (cats : List CategoryRow) (k : String) : Nat :=
  (if k = "Role" then 1 else 0) + (if k = "Job Description" then 1 else 0) + countName cats k

/-- Degenerate-input condition under which the per-column lists still end
up with equal lengths: `"Role"` and `"Job Description"` occur equally
often among the category names, and every other category name occurs
exactly one more time than that. -/
@[reducible]
def balancedTable (cats : List CategoryRow) : Prop :=
  countName cats "Role" = countName cats "Job Description" ∧
    ∀ k ∈ cats.map (fun c => c.category), k ≠ "Role" → k ≠ "Job Description" →
      countName cats k = countName cats "Role" + 1

/-! Formatter lemmas. -/

theorem splitOnDelimAux_ne_nil (fuel : Nat) (s : List Char) : splitOnDelimAux fuel s ≠ [] := by
  match fuel, s with
  | _, [] => simp [splitOnDelimAux]
  | 0, c :: cs => simp [splitOnDelimAux]
  | fuel+1, c :: cs =>
    rw [splitOnDelimAux]
    by_cases h : delim.isPrefixOf (c :: cs)
    · simp [h]
    · simp only [h, if_false]
      rcases hsp : splitOnDelimAux fuel cs with _ | ⟨t, ts⟩ <;> simp

theorem intercalate_single (sep a : List Char) : List.intercalate sep [a] = a := by
  simp [List.intercalate]

theorem intercalate_cons₂ (sep a b : List Char) (l : List (List Char)) :
    List.intercalate sep (a :: b :: l) = a ++ sep ++ List.intercalate sep (b :: l) := by
  simp [List.intercalate, List.intersperse, List.append_assoc]

theorem replace_eq_split : ∀ (fuel : Nat) (s : List Char), s.length ≤ fuel →
    pyReplaceAux delim dblNl fuel s = List.intercalate dblNl (splitOnDelimAux fuel s) := by
  intro fuel
  induction fuel with
  | zero =>
    intro s hs
    have : s = [] := List.eq_nil_of_length_eq_zero (Nat.le_zero.mp hs)
    subst this
    simp [pyReplaceAux, splitOnDelimAux, intercalate_single]
  | succ fuel ih =>
    intro s hs
    match s with
    | [] => simp [pyReplaceAux, splitOnDelimAux, intercalate_single]
    | c :: cs =>
      rw [pyReplaceAux, splitOnDelimAux]
      by_cases h : delim.isPrefixOf (c :: cs)
      · rw [if_pos h, if_pos h]
        have hdl : delim.length = 5 := rfl
        have hlen : ((c :: cs).drop delim.length).length ≤ fuel := by
          simp only [List.length_drop, List.length_cons]
          simp only [List.length_cons] at hs
          omega
        rcases hsp : splitOnDelimAux fuel ((c :: cs).drop delim.length) with _ | ⟨t, ts⟩
        · exact absurd hsp (splitOnDelimAux_ne_nil _ _)
        · rw [intercalate_cons₂, ih _ hlen, hsp]
          simp
      · rw [if_neg h, if_neg h]
        have hlen : cs.length ≤ fuel := by
          simp only [List.length_cons] at hs
          omega
        rcases hsp : splitOnDelimAux fuel cs with _ | ⟨t, ts⟩
        · exact absurd hsp (splitOnDelimAux_ne_nil _ _)
        · rw [ih _ hlen, hsp]
          match ts with
          | [] => simp [intercalate_single]
          | u :: ts => rw [intercalate_cons₂, intercalate_cons₂]; simp [List.append_assoc]

theorem pyReplaceAux_of_not_contains : ∀ (fuel : Nat) (s : List Char),
    containsDelim s = false → pyReplaceAux delim dblNl fuel s = s := by
  intro fuel
  induction fuel with
  | zero =>
    intro s _
    match s with
    | [] => rfl
    | c :: cs => rfl
  | succ fuel ih =>
    intro s h
    match s with
    | [] => rfl
    | c :: cs =>
      rw [containsDelim] at h
      simp only [Bool.or_eq_false_iff] at h
      have hn : ¬ delim.isPrefixOf (c :: cs) = true := by
        rw [h.1]
        simp
      rw [pyReplaceAux, if_neg hn, ih cs h.2]

theorem dropWhile_head_false_eq_self {α : Type} (p : α → Bool) (l : List α)
    (h : ∀ a, l.head? = some a → p a = false) : List.dropWhile p l = l := by
  match l with
  | [] => rfl
  | a :: l =>
    rw [List.dropWhile_cons, h a rfl]
    simp

theorem pyStrip_idem (s : List Char) : pyStrip (pyStrip s) = pyStrip s := by
  unfold pyStrip
  have hdu : List.dropWhile isPySpace (List.rdropWhile isPySpace (List.dropWhile isPySpace s)) =
      List.rdropWhile isPySpace (List.dropWhile isPySpace s) := by
    apply dropWhile_head_false_eq_self
    intro a ha
    obtain ⟨r, hr⟩ := List.rdropWhile_prefix isPySpace (List.dropWhile isPySpace s)
    rcases hu : List.rdropWhile isPySpace (List.dropWhile isPySpace s) with _ | ⟨b, u⟩
    · rw [hu] at ha
      cases ha
    · rw [hu] at ha hr
      simp only [List.head?_cons, Option.some.injEq] at ha
      subst ha
      have hh := List.head?_dropWhile_not isPySpace s
      rw [← hr] at hh
      simpa using hh
  rw [hdu, List.rdropWhile_idempotent]

/-- C7: a single application of the formatter replaces every (leftmost,
non-overlapping) occurrence of the delimiter pattern `"\n---\n"` with a
paragraph break `"\n\n"` and then removes leading and trailing
whitespace, performing no other change and no validation of the goal/KPI
structure: it coincides, on every input string, with the spec-worded
pipeline split-on-delimiter / join-with-paragraph-break / trim. -/
theorem formatter_replaces_delims_and_trims (s : String) :
    format_goals_for_excel s = format_goals_spec s := by
  unfold format_goals_for_excel format_goals_spec pyReplace splitOnDelim
  rw [replace_eq_split s.data.length s.data (Nat.le_refl _)]

/-- C1 (counterexample): the formatter is not idempotent, and its output
can still contain the delimiter pattern.  On `"a\n---\n---\nb"` the
single pass rewrites only the first of the two overlapping occurrences,
producing `"a\n\n---\nb"`, which contains a fresh occurrence of
`"\n---\n"`; a second application changes the string again. -/
theorem formatter_not_idempotent_cex :
    ¬ (format_goals_for_excel (format_goals_for_excel "a\n---\n---\nb") =
         format_goals_for_excel "a\n---\n---\nb" ∧
       containsDelim (format_goals_for_excel "a\n---\n---\nb").data = false) := by
  decide

/-- C1 (amended): for every input string whose formatted output contains
no occurrence of `"\n---\n"`, applying the formatter to its own output
yields the same string as applying it once. -/
theorem formatter_idempotent_of_no_delim (s : String)
    (h : containsDelim (format_goals_for_excel s).data = false) :
    format_goals_for_excel (format_goals_for_excel s) = format_goals_for_excel s := by
  unfold format_goals_for_excel at h ⊢
  rw [show (String.mk (pyStrip (pyReplace s.data delim dblNl))).data =
        pyStrip (pyReplace s.data delim dblNl) from rfl] at h ⊢
  rw [pyReplace, pyReplaceAux_of_not_contains _ _ h, pyStrip_idem]

/-- C1 (witness): the amended idempotence theorem applied at
`"x\n---\ny"`, whose formatted output is delimiter-free. -/
theorem formatter_idempotent_of_no_delim_witness :
    containsDelim (format_goals_for_excel "x\n---\ny").data = false ∧
    format_goals_for_excel (format_goals_for_excel "x\n---\ny") =
      format_goals_for_excel "x\n---\ny" :=
  ⟨by decide, formatter_idempotent_of_no_delim "x\n---\ny" (by decide)⟩

/-! Closed form of the assembled output dict. -/

theorem map_append_nil (d : Table) :
    d.map (fun p => (p.1, p.2 ++ ([] : List String))) = d := by
  induction d with
  | nil => rfl
  | cons p d ih => simp [ih]

theorem dictAppend_eq_map (d : Table) (k : String) (x : String) :
    dictAppend d k x = d.map (fun p => (p.1, p.2 ++ if p.1 = k then [x] else [])) := by
  unfold dictAppend
  congr 1
  funext p
  by_cases h : p.1 = k
  · simp [h]
  · simp [h]

theorem appendCells_eq_map : ∀ (cs : List CategoryRow) (g : Nat → Except String String)
    (j : Nat) (d : Table),
    appendCells g j cs d = d.map (fun p => (p.1, p.2 ++ cellsFor g j cs p.1)) := by
  intro cs
  induction cs with
  | nil =>
    intro g j d
    rw [appendCells]
    rw [show (fun (p : String × List String) => (p.1, p.2 ++ cellsFor g j [] p.1)) =
          (fun p => (p.1, p.2 ++ ([] : List String))) from funext fun p => by rw [cellsFor]]
    rw [map_append_nil]
  | cons c cs ih =>
    intro g j d
    rw [appendCells, ih, dictAppend_eq_map, List.map_map]
    congr 1
    funext p
    rw [cellsFor]
    by_cases h : p.1 = c.category
    · simp [Function.comp, h, List.append_assoc]
    · simp [Function.comp, h, Ne.symm h, List.append_assoc]

theorem processRole_eq_map (gen : Nat → Nat → Except String String) (cats : List CategoryRow)
    (i : Nat) (d : Table) (r : RoleRow) :
    processRole gen cats i d r = d.map (fun p => (p.1, p.2 ++ rowContrib gen cats i r p.1)) := by
  unfold processRole
  rw [appendCells_eq_map, dictAppend_eq_map, dictAppend_eq_map, List.map_map, List.map_map]
  congr 1
  funext p
  simp only [Function.comp]
  unfold rowContrib
  by_cases h1 : p.1 = "Role"
  · by_cases h2 : p.1 = "Job Description"
    · rw [h1] at h2
      exact absurd h2 (by decide)
    · simp [h1, h2, List.append_assoc]
  · by_cases h2 : p.1 = "Job Description"
    · simp [h1, h2, List.append_assoc]
    · simp [h1, h2, List.append_assoc]

theorem buildRows_eq_map (gen : Nat → Nat → Except String String) (cats : List CategoryRow) :
    ∀ (rs : List RoleRow) (i : Nat) (d : Table),
    buildRows gen cats i rs d = d.map (fun p => (p.1, p.2 ++ rowsContrib gen cats i rs p.1)) := by
  intro rs
  induction rs with
  | nil =>
    intro i d
    rw [buildRows]
    rw [show (fun (p : String × List String) => (p.1, p.2 ++ rowsContrib gen cats i [] p.1)) =
          (fun p => (p.1, p.2 ++ ([] : List String))) from funext fun p => by rw [rowsContrib]]
    rw [map_append_nil]
  | cons r rs ih =>
    intro i d
    rw [buildRows, ih, processRole_eq_map, List.map_map]
    congr 1
    funext p
    simp [Function.comp, rowsContrib, List.append_assoc]

theorem list_any_map {α β : Type} (f : α → β) (p : β → Bool) (l : List α) :
    (l.map f).any p = l.any (fun x => p (f x)) := by
  induction l with
  | nil => rfl
  | cons x l ih => simp [ih]

theorem foldl_dictSet_eq (cats : List CategoryRow) : ∀ (ks : List String),
    cats.foldl (fun d c => dictSet d c.category []) (ks.map (fun k => (k, ([] : List String)))) =
      (insKeys ks cats).map (fun k => (k, ([] : List String))) := by
  induction cats with
  | nil => intro ks; rw [List.foldl_nil, insKeys]
  | cons c cs ih =>
    intro ks
    rw [List.foldl_cons, insKeys]
    have hmem : ((ks.map (fun k => (k, ([] : List String)))).any (fun p => p.1 == c.category)) = true ↔
        c.category ∈ ks := by
      rw [list_any_map]
      simp [List.any_eq_true]
    have hset : dictSet (ks.map (fun k => (k, ([] : List String)))) c.category [] =
        (if c.category ∈ ks then ks else ks ++ [c.category]).map (fun k => (k, ([] : List String))) := by
      unfold dictSet
      by_cases h : c.category ∈ ks
      · rw [if_pos (hmem.mpr h), if_pos h, List.map_map]
        congr 1
        funext k
        by_cases hk : k = c.category
        · simp [Function.comp, hk]
        · simp [Function.comp, hk]
      · rw [if_neg (fun hh => h (hmem.mp hh)), if_neg h, List.map_append]
        rfl
    rw [hset, ih]

theorem initTable_eq (cats : List CategoryRow) :
    initTable cats = (keyList cats).map (fun k => (k, ([] : List String))) := by
  unfold initTable keyList
  exact foldl_dictSet_eq cats ["Role", "Job Description"]

theorem build_output_data_eq (gen : Nat → Nat → Except String String)
    (cats : List CategoryRow) (roles : List RoleRow) :
    build_output_data gen cats roles =
      (keyList cats).map (fun k => (k, rowsContrib gen cats 0 roles k)) := by
  unfold build_output_data
  rw [initTable_eq, buildRows_eq_map, List.map_map]
  rfl

/-! Column values under valid inputs (distinct category names, none equal
to the two fixed column names). -/

theorem cellsFor_of_not_mem : ∀ (cs : List CategoryRow) (g : Nat → Except String String)
    (j : Nat) (k : String), k ∉ cs.map (fun c => c.category) → cellsFor g j cs k = [] := by
  intro cs
  induction cs with
  | nil =>
    intro g j k _
    rfl
  | cons c cs ih =>
    intro g j k hk
    simp only [List.map_cons, List.mem_cons, not_or] at hk
    rw [cellsFor, if_neg (fun hh => hk.1 hh.symm), List.nil_append, ih _ _ _ hk.2]

theorem cellsFor_decomp : ∀ (l₁ : List CategoryRow) (c : CategoryRow) (l₂ : List CategoryRow)
    (g : Nat → Except String String) (j : Nat),
    ((l₁ ++ c :: l₂).map (fun x => x.category)).Nodup →
    cellsFor g j (l₁ ++ c :: l₂) c.category = [computeCell (g (j + l₁.length))] := by
  intro l₁
  induction l₁ with
  | nil =>
    intro c l₂ g j hnd
    simp only [List.nil_append, List.map_cons, List.nodup_cons] at hnd
    rw [List.nil_append, cellsFor, if_pos rfl, cellsFor_of_not_mem _ _ _ _ hnd.1]
    simp
  | cons a l₁ ih =>
    intro c l₂ g j hnd
    simp only [List.cons_append, List.map_cons, List.nodup_cons] at hnd
    have hcm : c.category ∈ (l₁ ++ c :: l₂).map (fun x => x.category) := by simp
    have hne : ¬ a.category = c.category := by
      intro hh
      exact hnd.1 (by rw [hh]; exact hcm)
    rw [List.cons_append, cellsFor, if_neg hne, List.nil_append, ih c l₂ g (j+1) hnd.2]
    have harith : j + 1 + l₁.length = j + (a :: l₁).length := by
      simp only [List.length_cons]
      omega
    rw [harith]

theorem rowsContrib_role (gen : Nat → Nat → Except String String) (cats : List CategoryRow)
    (hR : "Role" ∉ cats.map (fun c => c.category)) :
    ∀ (rs : List RoleRow) (i : Nat), rowsContrib gen cats i rs "Role" = rs.map (fun r => r.role) := by
  intro rs
  induction rs with
  | nil =>
    intro i
    rfl
  | cons r rs ih =>
    intro i
    rw [rowsContrib]
    unfold rowContrib
    rw [if_pos rfl, if_neg (by decide), cellsFor_of_not_mem _ _ _ _ hR, ih]
    simp

theorem rowsContrib_jd (gen : Nat → Nat → Except String String) (cats : List CategoryRow)
    (hJ : "Job Description" ∉ cats.map (fun c => c.category)) :
    ∀ (rs : List RoleRow) (i : Nat),
      rowsContrib gen cats i rs "Job Description" = rs.map (fun r => r.job_description) := by
  intro rs
  induction rs with
  | nil =>
    intro i
    rfl
  | cons r rs ih =>
    intro i
    rw [rowsContrib]
    unfold rowContrib
    rw [if_neg (by decide), if_pos rfl, cellsFor_of_not_mem _ _ _ _ hJ, ih]
    simp

theorem rowsContrib_cat (gen : Nat → Nat → Except String String)
    (l₁ : List CategoryRow) (c : CategoryRow) (l₂ : List CategoryRow)
    (hnd : ((l₁ ++ c :: l₂).map (fun x => x.category)).Nodup)
    (hcR : c.category ≠ "Role") (hcJ : c.category ≠ "Job Description") :
    ∀ (rs : List RoleRow) (i : Nat),
      rowsContrib gen (l₁ ++ c :: l₂) i rs c.category = colFor gen l₁.length i rs := by
  intro rs
  induction rs with
  | nil =>
    intro i
    rfl
  | cons r rs ih =>
    intro i
    rw [rowsContrib, colFor]
    unfold rowContrib
    rw [if_neg hcR, if_neg hcJ, cellsFor_decomp l₁ c l₂ (gen i) 0 hnd, ih]
    simp

theorem insKeys_of_fresh : ∀ (cs : List CategoryRow) (ks : List String),
    (∀ c ∈ cs, c.category ∉ ks) → ((cs.map (fun c => c.category)).Nodup) →
    insKeys ks cs = ks ++ cs.map (fun c => c.category) := by
  intro cs
  induction cs with
  | nil =>
    intro ks _ _
    simp [insKeys]
  | cons c cs ih =>
    intro ks hf hnd
    simp only [List.map_cons, List.nodup_cons] at hnd
    rw [insKeys, if_neg (hf c (by simp))]
    have hf2 : ∀ c2 ∈ cs, c2.category ∉ ks ++ [c.category] := by
      intro c2 hc2 hk
      rcases List.mem_append.mp hk with hk | hk
      · exact hf c2 (List.mem_cons_of_mem _ hc2) hk
      · have heq2 : c2.category = c.category := by simpa using hk
        exact hnd.1 (by rw [← heq2]; exact List.mem_map.mpr ⟨c2, hc2, rfl⟩)
    rw [ih _ hf2 hnd.2]
    simp

theorem keyList_valid (cats : List CategoryRow)
    (hnd : (cats.map (fun c => c.category)).Nodup)
    (hR : "Role" ∉ cats.map (fun c => c.category))
    (hJ : "Job Description" ∉ cats.map (fun c => c.category)) :
    keyList cats = "Role" :: "Job Description" :: cats.map (fun c => c.category) := by
  unfold keyList
  have hf : ∀ c ∈ cats, c.category ∉ ["Role", "Job Description"] := by
    intro c hc hk
    simp only [List.mem_cons, List.not_mem_nil, or_false] at hk
    rcases hk with hk | hk
    · exact hR (by rw [← hk]; exact List.mem_map.mpr ⟨c, hc, rfl⟩)
    · exact hJ (by rw [← hk]; exact List.mem_map.mpr ⟨c, hc, rfl⟩)
  rw [insKeys_of_fresh cats _ hf hnd]
  rfl

theorem map_rowsContrib_eq_catCols (gen : Nat → Nat → Except String String)
    (roles : List RoleRow) (cats : List CategoryRow)
    (hnd : (cats.map (fun c => c.category)).Nodup)
    (hR : "Role" ∉ cats.map (fun c => c.category))
    (hJ : "Job Description" ∉ cats.map (fun c => c.category)) :
    ∀ (l₂ l₁ : List CategoryRow), cats = l₁ ++ l₂ →
      l₂.map (fun c => (c.category, rowsContrib gen cats 0 roles c.category)) =
        catCols gen roles l₁.length l₂ := by
  intro l₂
  induction l₂ with
  | nil =>
    intro l₁ _
    rfl
  | cons c cs ih =>
    intro l₁ heq
    rw [List.map_cons, catCols]
    have hcm : c.category ∈ cats.map (fun x => x.category) := by
      rw [heq]
      simp
    have hcR : c.category ≠ "Role" := fun hh => hR (by rw [← hh]; exact hcm)
    have hcJ : c.category ≠ "Job Description" := fun hh => hJ (by rw [← hh]; exact hcm)
    have hnd2 : ((l₁ ++ c :: cs).map (fun x => x.category)).Nodup := by
      rw [← heq]
      exact hnd
    congr 1
    · rw [heq, rowsContrib_cat gen l₁ c cs hnd2 hcR hcJ roles 0]
    · have hrec := ih (l₁ ++ [c]) (by rw [heq]; simp)
      rw [List.length_append] at hrec
      simpa using hrec

theorem build_columns (gen : Nat → Nat → Except String String)
    (cats : List CategoryRow) (roles : List RoleRow)
    (hnd : (cats.map (fun c => c.category)).Nodup)
    (hR : "Role" ∉ cats.map (fun c => c.category))
    (hJ : "Job Description" ∉ cats.map (fun c => c.category)) :
    build_output_data gen cats roles =
      ("Role", roles.map (fun r => r.role)) ::
        ("Job Description", roles.map (fun r => r.job_description)) ::
          catCols gen roles 0 cats := by
  rw [build_output_data_eq, keyList_valid cats hnd hR hJ]
  rw [List.map_cons, List.map_cons]
  rw [rowsContrib_role gen cats hR roles 0, rowsContrib_jd gen cats hJ roles 0]
  congr 1
  congr 1
  have hrec := map_rowsContrib_eq_catCols gen roles cats hnd hR hJ cats [] rfl
  rw [List.map_map] at *
  simpa [Function.comp] using hrec

/-! Transposing the valid-case columns into the spec-side rows. -/

theorem colFor_length (gen : Nat → Nat → Except String String) (j : Nat) :
    ∀ (rs : List RoleRow) (i : Nat), (colFor gen j i rs).length = rs.length := by
  intro rs
  induction rs with
  | nil =>
    intro i
    rfl
  | cons r rs ih =>
    intro i
    rw [colFor, List.length_cons, List.length_cons, ih]

theorem catCols_fst (gen : Nat → Nat → Except String String) (roles : List RoleRow) :
    ∀ (cs : List CategoryRow) (j : Nat),
    (catCols gen roles j cs).map Prod.fst = cs.map (fun c => c.category) := by
  intro cs
  induction cs with
  | nil =>
    intro j
    rfl
  | cons c cs ih =>
    intro j
    rw [catCols, List.map_cons, List.map_cons, ih]

theorem catCols_snd (gen : Nat → Nat → Except String String) (roles : List RoleRow) :
    ∀ (cs : List CategoryRow) (j : Nat),
    (catCols gen roles j cs).map Prod.snd = catColVals gen 0 roles j cs := by
  intro cs
  induction cs with
  | nil =>
    intro j
    rfl
  | cons c cs ih =>
    intro j
    rw [catCols, catColVals, List.map_cons, ih]

theorem catCols_length (gen : Nat → Nat → Except String String) (roles : List RoleRow) :
    ∀ (cs : List CategoryRow) (j : Nat) (q : String × List String),
    q ∈ catCols gen roles j cs → q.2.length = roles.length := by
  intro cs
  induction cs with
  | nil =>
    intro j q hq
    cases hq
  | cons c cs ih =>
    intro j q hq
    rcases List.mem_cons.mp hq with hq | hq
    · rw [hq]
      exact colFor_length gen j roles 0
    · exact ih (j+1) q hq

theorem catColVals_heads (gen : Nat → Nat → Except String String) (i : Nat)
    (r : RoleRow) (rs : List RoleRow) :
    ∀ (cs : List CategoryRow) (j : Nat),
    (catColVals gen i (r :: rs) j cs).map (fun c => c.headD "") = cellRowAux (gen i) j cs := by
  intro cs
  induction cs with
  | nil =>
    intro j
    rfl
  | cons c cs ih =>
    intro j
    rw [catColVals, cellRowAux, List.map_cons, colFor, ih]
    rfl

theorem catColVals_tails (gen : Nat → Nat → Except String String) (i : Nat)
    (r : RoleRow) (rs : List RoleRow) :
    ∀ (cs : List CategoryRow) (j : Nat),
    (catColVals gen i (r :: rs) j cs).map List.tail = catColVals gen (i+1) rs j cs := by
  intro cs
  induction cs with
  | nil =>
    intro j
    rfl
  | cons c cs ih =>
    intro j
    rw [catColVals, catColVals, List.map_cons, colFor, ih]
    rfl

theorem rowsOf_expected (gen : Nat → Nat → Except String String) (cats : List CategoryRow) :
    ∀ (rs : List RoleRow) (i : Nat),
    rowsOf rs.length
        ((rs.map (fun r => r.role)) :: (rs.map (fun r => r.job_description)) ::
          catColVals gen i rs 0 cats) = expectedRowsAux gen cats i rs := by
  intro rs
  induction rs with
  | nil =>
    intro i
    rfl
  | cons r rs ih =>
    intro i
    rw [List.length_cons, rowsOf, expectedRowsAux]
    congr 1
    · simp only [List.map_cons, List.headD_cons]
      rw [catColVals_heads]
    · simp only [List.map_cons, List.tail_cons]
      rw [catColVals_tails]
      exact ih (i+1)

theorem pdDataFrame_cons (p : String × List String) (ps : Table)
    (h : ps.all (fun q => q.2.length == p.2.length) = true) :
    pdDataFrame (p :: ps) =
      .ok ((p :: ps).map Prod.fst, rowsOf p.2.length ((p :: ps).map Prod.snd)) := by
  simp only [pdDataFrame]
  rw [if_pos h]

theorem generate_table_closed (gen : Nat → Nat → Except String String)
    (cats : List CategoryRow) (roles : List RoleRow)
    (hnd : (cats.map (fun c => c.category)).Nodup)
    (hR : "Role" ∉ cats.map (fun c => c.category))
    (hJ : "Job Description" ∉ cats.map (fun c => c.category)) :
    generate_table gen cats roles =
      .ok (expectedHeaders cats, expectedRowsAux gen cats 0 roles) := by
  unfold generate_table
  rw [build_columns gen cats roles hnd hR hJ]
  have hall : (("Job Description", roles.map (fun r => r.job_description)) ::
      catCols gen roles 0 cats).all
      (fun q => q.2.length == (roles.map (fun r => r.role)).length) = true := by
    rw [List.all_eq_true]
    intro q hq
    rcases List.mem_cons.mp hq with hq | hq
    · rw [hq]
      simp
    · have := catCols_length gen roles cats 0 q hq
      simp [this]
  rw [pdDataFrame_cons _ _ hall]
  congr 1
  rw [List.map_cons, List.map_cons, List.map_cons, List.map_cons]
  rw [catCols_fst, catCols_snd]
  congr 1
  simp only [List.length_map]
  rw [rowsOf_expected gen cats roles 0]

/-! Row and cell access lemmas for the spec-side table. -/

theorem cellRowAux_length (g : Nat → Except String String) :
    ∀ (cs : List CategoryRow) (j : Nat), (cellRowAux g j cs).length = cs.length := by
  intro cs
  induction cs with
  | nil =>
    intro j
    rfl
  | cons c cs ih =>
    intro j
    rw [cellRowAux, List.length_cons, List.length_cons, ih]

theorem expectedRowsAux_length (gen : Nat → Nat → Except String String) (cats : List CategoryRow) :
    ∀ (rs : List RoleRow) (i : Nat), (expectedRowsAux gen cats i rs).length = rs.length := by
  intro rs
  induction rs with
  | nil =>
    intro i
    rfl
  | cons r rs ih =>
    intro i
    rw [expectedRowsAux, List.length_cons, List.length_cons, ih]

theorem cellRowAux_getD (g : Nat → Except String String) :
    ∀ (cs : List CategoryRow) (j0 j : Nat), j < cs.length →
    (cellRowAux g j0 cs).getD j "" = computeCell (g (j0 + j)) := by
  intro cs
  induction cs with
  | nil =>
    intro j0 j hj
    exact absurd hj (by simp)
  | cons c cs ih =>
    intro j0 j hj
    rw [cellRowAux]
    match j with
    | 0 =>
      rw [List.getD_cons_zero, Nat.add_zero]
    | j+1 =>
      rw [List.getD_cons_succ, ih (j0+1) j (by simpa using Nat.lt_of_succ_lt_succ hj)]
      have : j0 + 1 + j = j0 + (j + 1) := by omega
      rw [this]

theorem expectedRowsAux_getD (gen : Nat → Nat → Except String String) (cats : List CategoryRow) :
    ∀ (rs : List RoleRow) (i0 i : Nat), i < rs.length →
    (expectedRowsAux gen cats i0 rs).getD i [] =
      (rs.getD i dRole).role :: (rs.getD i dRole).job_description ::
        cellRowAux (gen (i0 + i)) 0 cats := by
  intro rs
  induction rs with
  | nil =>
    intro i0 i hi
    exact absurd hi (by simp)
  | cons r rs ih =>
    intro i0 i hi
    rw [expectedRowsAux]
    match i with
    | 0 =>
      rw [List.getD_cons_zero, List.getD_cons_zero, Nat.add_zero]
    | i+1 =>
      rw [List.getD_cons_succ, List.getD_cons_succ,
        ih (i0+1) i (by simpa using Nat.lt_of_succ_lt_succ hi)]
      have : i0 + 1 + i = i0 + (i + 1) := by omega
      rw [this]

/-- C2: for valid inputs (category names pairwise distinct — as the data
model assumes — and not colliding with the two fixed column names, cf.
C10 for the degenerate cases), the assembled output table has exactly one
row per input role, in input order (row `i` holding role `i`'s name, job
description, and its cells), and its columns are exactly `Role` and
`Job Description` followed by one column per input category name, in
input order. -/
theorem generate_table_shape (gen : Nat → Nat → Except String String)
    (cats : List CategoryRow) (roles : List RoleRow)
    (hnd : (cats.map (fun c => c.category)).Nodup)
    (hR : "Role" ∉ cats.map (fun c => c.category))
    (hJ : "Job Description" ∉ cats.map (fun c => c.category)) :
    generate_table gen cats roles =
        .ok (expectedHeaders cats, expectedRowsAux gen cats 0 roles) ∧
      (expectedRowsAux gen cats 0 roles).length = roles.length :=
  ⟨generate_table_closed gen cats roles hnd hR hJ,
    expectedRowsAux_length gen cats roles 0⟩

/-- C2 (witness): the shape theorem applied to one category and one role,
with the table evaluated concretely. -/
theorem generate_table_shape_witness :
    generate_table (fun _ _ => .ok "Goal: X") [⟨"Quality", "d", "2"⟩]
        [⟨"Engineer", "builds things"⟩] =
      .ok (["Role", "Job Description", "Quality"],
        [["Engineer", "builds things", "Goal: X"]]) := by
  rw [(generate_table_shape (fun _ _ => .ok "Goal: X") [⟨"Quality", "d", "2"⟩]
    [⟨"Engineer", "builds things"⟩] (by decide) (by decide) (by decide)).1]
  rfl

/-- C3: if the generation call raises for exactly one (role, category)
pair — `gen2` errors at `(i0, j0)` and agrees with the failure-free
oracle `gen` everywhere else — the run still produces a table of the same
shape, the failed cell holds `"Error: "` followed by the exception
message, and every other cell is the same as in the failure-free run. -/
theorem single_failure_isolated (gen gen2 : Nat → Nat → Except String String)
    (cats : List CategoryRow) (roles : List RoleRow) (i0 j0 : Nat) (msg : String)
    (hnd : (cats.map (fun c => c.category)).Nodup)
    (hR : "Role" ∉ cats.map (fun c => c.category))
    (hJ : "Job Description" ∉ cats.map (fun c => c.category))
    (hi : i0 < roles.length) (hj : j0 < cats.length)
    (hfail : gen2 i0 j0 = .error msg)
    (hagree : ∀ i j, ¬ (i = i0 ∧ j = j0) → gen2 i j = gen i j) :
    ∃ rows rows2,
      generate_table gen cats roles = .ok (expectedHeaders cats, rows) ∧
      generate_table gen2 cats roles = .ok (expectedHeaders cats, rows2) ∧
      rows.length = roles.length ∧ rows2.length = roles.length ∧
      (rows2.getD i0 []).getD (2 + j0) "" = "Error: " ++ msg ∧
      (∀ i j, ¬ (i = i0 ∧ j = 2 + j0) →
        (rows2.getD i []).getD j "" = (rows.getD i []).getD j "") := by
  refine ⟨expectedRowsAux gen cats 0 roles, expectedRowsAux gen2 cats 0 roles,
    generate_table_closed gen cats roles hnd hR hJ,
    generate_table_closed gen2 cats roles hnd hR hJ,
    expectedRowsAux_length gen cats roles 0,
    expectedRowsAux_length gen2 cats roles 0, ?_, ?_⟩
  · rw [expectedRowsAux_getD gen2 cats roles 0 i0 hi, Nat.zero_add]
    have h2 : 2 + j0 = j0 + 1 + 1 := by omega
    rw [h2, List.getD_cons_succ, List.getD_cons_succ,
      cellRowAux_getD (gen2 i0) cats 0 j0 hj, Nat.zero_add, hfail]
    rfl
  · intro i j hne
    by_cases hilt : i < roles.length
    · rw [expectedRowsAux_getD gen cats roles 0 i hilt,
        expectedRowsAux_getD gen2 cats roles 0 i hilt, Nat.zero_add]
      match j with
      | 0 => rw [List.getD_cons_zero, List.getD_cons_zero]
      | 1 =>
        rw [show (1 : Nat) = 0 + 1 from rfl, List.getD_cons_succ, List.getD_cons_succ,
          List.getD_cons_zero, List.getD_cons_zero]
      | j2+2 =>
        rw [show j2 + 2 = (j2 + 1) + 1 from rfl, List.getD_cons_succ, List.getD_cons_succ,
          List.getD_cons_succ, List.getD_cons_succ]
        by_cases hjlt : j2 < cats.length
        · rw [cellRowAux_getD (gen i) cats 0 j2 hjlt,
            cellRowAux_getD (gen2 i) cats 0 j2 hjlt, Nat.zero_add,
            hagree i j2 (fun hh => hne ⟨hh.1, by omega⟩)]
        · rw [List.getD_eq_default _ _ (by rw [cellRowAux_length]; omega),
            List.getD_eq_default _ _ (by rw [cellRowAux_length]; omega)]
    · rw [List.getD_eq_default (expectedRowsAux gen2 cats 0 roles) []
          (by rw [expectedRowsAux_length]; omega),
        List.getD_eq_default (expectedRowsAux gen cats 0 roles) []
          (by rw [expectedRowsAux_length]; omega)]

/-- C3 (witness): two roles, two categories, failure injected at role 0 /
category 1 with message `"boom"`; all six conclusion components
instantiated at that input. -/
theorem single_failure_isolated_witness :
    ∃ rows rows2,
      generate_table (fun _ _ => .ok "G") [⟨"A", "", "1"⟩, ⟨"B", "", "1"⟩]
          [⟨"r1", "j1"⟩, ⟨"r2", "j2"⟩] = .ok (expectedHeaders [⟨"A", "", "1"⟩, ⟨"B", "", "1"⟩], rows) ∧
      generate_table (fun i j => if i = 0 ∧ j = 1 then .error "boom" else .ok "G")
          [⟨"A", "", "1"⟩, ⟨"B", "", "1"⟩] [⟨"r1", "j1"⟩, ⟨"r2", "j2"⟩] =
        .ok (expectedHeaders [⟨"A", "", "1"⟩, ⟨"B", "", "1"⟩], rows2) ∧
      rows.length = 2 ∧ rows2.length = 2 ∧
      (rows2.getD 0 []).getD 3 "" = "Error: " ++ "boom" ∧
      (∀ i j, ¬ (i = 0 ∧ j = 3) →
        (rows2.getD i []).getD j "" = (rows.getD i []).getD j "") := by
  have h := single_failure_isolated (fun _ _ => .ok "G")
    (fun i j => if i = 0 ∧ j = 1 then .error "boom" else .ok "G")
    [⟨"A", "", "1"⟩, ⟨"B", "", "1"⟩] [⟨"r1", "j1"⟩, ⟨"r2", "j2"⟩] 0 1 "boom"
    (by decide) (by decide) (by decide) (by decide) (by decide) rfl
    (by
      intro i j hne
      show (if i = 0 ∧ j = 1 then Except.error "boom" else (Except.ok "G" : Except String String)) =
        Except.ok "G"
      rw [if_neg hne])
  simpa using h

/-- C5 (counterexample): the claim's example is wrong — headers
`["cat","desc","n"]` are abbreviations, not case variants, of
`["Category","Description","Number_of_Goals"]`, so loading fails with the
schema-mismatch error instead of succeeding. -/
theorem abbreviated_headers_fail_cex :
    load_excel_data
        (fun p => if p = "cats.xlsx" then some ⟨["cat", "desc", "n"], []⟩ else none)
        "cats.xlsx" catColumns =
      .error (.valueError (schemaErrorMsg catColumns ["cat", "desc", "n"])) ∧
    ∀ df, load_excel_data
        (fun p => if p = "cats.xlsx" then some ⟨["cat", "desc", "n"], []⟩ else none)
        "cats.xlsx" catColumns ≠ .ok df := by
  have heval : load_excel_data
      (fun p => if p = "cats.xlsx" then some ⟨["cat", "desc", "n"], []⟩ else none)
      "cats.xlsx" catColumns =
      .error (.valueError (schemaErrorMsg catColumns ["cat", "desc", "n"])) := rfl
  refine ⟨heval, ?_⟩
  intro df h
  rw [heval] at h
  exact Except.noConfusion h

/-- C5 (amended): the loader fails with a `FileNotFound`-kind error exactly
when the path does not exist; otherwise, when the first `N`
whitespace-trimmed header names do not equal the `N` expected names up to
case, it fails with a schema-mismatch `ValueError` whose message reports
both the expected and the found names, and when they do match up to case
(true case variants, not abbreviations) it succeeds. -/
theorem load_error_modes (fs : String → Option Sheet) (path : String)
    (expected : List String) :
    ((∃ m, load_excel_data fs path expected = .error (.fileNotFound m)) ↔ fs path = none) ∧
    (∀ df, fs path = some df →
      (((df.headers.map pyStripStr).take expected.length).map strLower ≠
          expected.map strLower →
        load_excel_data fs path expected =
          .error (.valueError
            (schemaErrorMsg expected ((df.headers.map pyStripStr).take expected.length)))) ∧
      (((df.headers.map pyStripStr).take expected.length).map strLower =
          expected.map strLower →
        load_excel_data fs path expected =
          .ok ⟨expected, df.rows.map (fun r => r.take expected.length)⟩)) := by
  constructor
  · constructor
    · rintro ⟨m, hm⟩
      cases hfs : fs path with
      | none => rfl
      | some df =>
        exfalso
        unfold load_excel_data at hm
        rw [hfs] at hm
        dsimp only at hm
        split_ifs at hm with hcond
        exact LoadError.noConfusion (Except.error.inj hm)
    · intro hfs
      refine ⟨"File not found: " ++ path, ?_⟩
      unfold load_excel_data
      rw [hfs]
  · intro df hfs
    constructor
    · intro hne
      unfold load_excel_data
      rw [hfs]
      dsimp only
      rw [if_pos hne]
    · intro heq
      unfold load_excel_data
      rw [hfs]
      dsimp only
      rw [if_neg (fun hh => hh heq)]

/-- C5 (witness): the amended theorem applied at a concrete filesystem —
pure case variants of the expected headers load successfully, and a
missing path yields the `FileNotFound`-kind error. -/
theorem load_error_modes_witness :
    load_excel_data
        (fun p => if p = "cats.xlsx" then
          some ⟨["CATEGORY", "description", " Number_Of_Goals "], [["a", "b", "1", "z"]]⟩
        else none) "cats.xlsx" catColumns =
      .ok ⟨catColumns, [["a", "b", "1"]]⟩ ∧
    (∃ m, load_excel_data
        (fun p => if p = "cats.xlsx" then
          some ⟨["CATEGORY", "description", " Number_Of_Goals "], [["a", "b", "1", "z"]]⟩
        else none) "missing.xlsx" catColumns = .error (.fileNotFound m)) := by
  constructor
  · have h := ((load_error_modes
      (fun p => if p = "cats.xlsx" then
        some ⟨["CATEGORY", "description", " Number_Of_Goals "], [["a", "b", "1", "z"]]⟩
      else none) "cats.xlsx" catColumns).2
      ⟨["CATEGORY", "description", " Number_Of_Goals "], [["a", "b", "1", "z"]]⟩ rfl).2
      (by decide)
    rw [h]
    rfl
  · exact (load_error_modes
      (fun p => if p = "cats.xlsx" then
        some ⟨["CATEGORY", "description", " Number_Of_Goals "], [["a", "b", "1", "z"]]⟩
      else none) "missing.xlsx" catColumns).1.mpr rfl

/-- C6: on a successful load (existing file, first-`N` headers matching
after trimming and lowercasing), the loader returns the sheet with the
first `N` columns renamed to the canonical expected names, columns beyond
`N` discarded from every row, and all data rows kept; extra trailing
header columns cannot cause failure since only the first `N` are
compared. -/
theorem load_success_shape (fs : String → Option Sheet) (path : String)
    (expected : List String) (df : Sheet)
    (hfs : fs path = some df)
    (hmatch : ((df.headers.map pyStripStr).take expected.length).map strLower =
      expected.map strLower) :
    load_excel_data fs path expected =
      .ok ⟨expected, df.rows.map (fun r => r.take expected.length)⟩ := by
  unfold load_excel_data
  rw [hfs]
  dsimp only
  rw [if_neg (fun hh => hh hmatch)]

/-- C6 (witness): a sheet with padded, case-varied headers plus an extra
trailing column and two data rows loads to the canonical headers with the
extra cells dropped and both rows kept. -/
theorem load_success_shape_witness :
    load_excel_data
        (fun _ => some ⟨["  Role ", "JOB DESCRIPTION", "Extra"],
          [["r1", "j1", "x"], ["r2", "j2", "y"]]⟩) "roles.xlsx" roleColumns =
      .ok ⟨roleColumns, [["r1", "j1"], ["r2", "j2"]]⟩ := by
  rw [load_success_shape
    (fun _ => some ⟨["  Role ", "JOB DESCRIPTION", "Extra"],
      [["r1", "j1", "x"], ["r2", "j2", "y"]]⟩) "roles.xlsx" roleColumns
    ⟨["  Role ", "JOB DESCRIPTION", "Extra"], [["r1", "j1", "x"], ["r2", "j2", "y"]]⟩
    rfl (by decide)]
  rfl

/-- C4 (code bug, evaluated at the failing input): with 25 categories the
25th category column of the sheet is spreadsheet column 27, i.e. `"AA"`,
but the writer computes its width key as `chr(64 + 27) = "["`; so no
width-50 assignment targets column `AA` (the claim's width-50-for-every-
category-column fails beyond 24 categories), while the `Role` and
`Job Description` assignments are as claimed. -/
theorem category_column_width_bug :
    excelColumnName 27 = "AA" ∧
    colChr 27 = "[" ∧
    ((columnWidths ((List.range 25).map
        (fun i => ⟨String.mk [Char.ofNat (65 + i)], "d", "1"⟩))).all
      (fun p => p.1 != "AA")) = true ∧
    ("[", 50) ∈ columnWidths ((List.range 25).map
      (fun i => ⟨String.mk [Char.ofNat (65 + i)], "d", "1"⟩)) ∧
    ("A", 20) ∈ columnWidths ((List.range 25).map
      (fun i => ⟨String.mk [Char.ofNat (65 + i)], "d", "1"⟩)) ∧
    ("B", 40) ∈ columnWidths ((List.range 25).map
      (fun i => ⟨String.mk [Char.ofNat (65 + i)], "d", "1"⟩)) := by
  decide

/-- C8: if either input file path does not exist — or a header-schema
mismatch occurs on either input — the program exits with code 1, prints
an error message to stderr, and creates no output file. -/
theorem missing_input_aborts (env : String → Option String) (fs : String → Option Sheet)
    (gen : Nat → Nat → Except String String) (categories_file roles_file : String)
    (api_key : Option String)
    (h : fs categories_file = none ∨ fs roles_file = none ∨
      (∃ m, load_excel_data fs categories_file catColumns = .error (.valueError m)) ∨
      (∃ m, load_excel_data fs roles_file roleColumns = .error (.valueError m))) :
    (main_model env fs gen categories_file roles_file api_key).exitCode = 1 ∧
    (main_model env fs gen categories_file roles_file api_key).outputWritten = false ∧
    (main_model env fs gen categories_file roles_file api_key).output = none ∧
    ∃ m, (main_model env fs gen categories_file roles_file api_key).stderr = some m := by
  have herr : ∃ e, generate_performance_goals_model env fs gen categories_file roles_file api_key =
      .error e := by
    rcases h with h | h | ⟨m, hm⟩ | ⟨m, hm⟩
    · have hc : load_excel_data fs categories_file catColumns =
          .error (.fileNotFound ("File not found: " ++ categories_file)) := by
        unfold load_excel_data
        rw [h]
      exact ⟨_, by unfold generate_performance_goals_model; rw [hc]⟩
    · cases hc : load_excel_data fs categories_file catColumns with
      | error e => exact ⟨_, by unfold generate_performance_goals_model; rw [hc]⟩
      | ok catsSheet =>
        have hr : load_excel_data fs roles_file roleColumns =
            .error (.fileNotFound ("File not found: " ++ roles_file)) := by
          unfold load_excel_data
          rw [h]
        exact ⟨_, by unfold generate_performance_goals_model; rw [hc, hr]⟩
    · exact ⟨_, by unfold generate_performance_goals_model; rw [hm]⟩
    · cases hc : load_excel_data fs categories_file catColumns with
      | error e => exact ⟨_, by unfold generate_performance_goals_model; rw [hc]⟩
      | ok catsSheet => exact ⟨_, by unfold generate_performance_goals_model; rw [hc, hm]⟩
  obtain ⟨e, he⟩ := herr
  unfold main_model
  rw [he]
  exact ⟨rfl, rfl, rfl, _, rfl⟩

/-- C8 (witness): the abort theorem applied to an empty filesystem. -/
theorem missing_input_aborts_witness :
    (main_model (fun _ => none) (fun _ => none) (fun _ _ => .ok "G")
      "c.xlsx" "r.xlsx" none).exitCode = 1 ∧
    (main_model (fun _ => none) (fun _ => none) (fun _ _ => .ok "G")
      "c.xlsx" "r.xlsx" none).outputWritten = false ∧
    (main_model (fun _ => none) (fun _ => none) (fun _ _ => .ok "G")
      "c.xlsx" "r.xlsx" none).output = none ∧
    ∃ m, (main_model (fun _ => none) (fun _ => none) (fun _ _ => .ok "G")
      "c.xlsx" "r.xlsx" none).stderr = some m :=
  missing_input_aborts (fun _ => none) (fun _ => none) (fun _ _ => .ok "G")
    "c.xlsx" "r.xlsx" none (Or.inl rfl)

/-- C9: the `--api-key` argument has no effect — the `api_key` parameter is
unconditionally overwritten by the `ANTHROPIC_API_KEY` environment lookup
before any use (line 117), so two runs differing only in that argument
choose the same authentication mode and produce identical observable
results (exit code, stderr, output file); the prompts are built from the
loaded rows and time period only, so they are likewise unaffected. -/
theorem api_key_flag_has_no_effect (env : String → Option String) (fs : String → Option Sheet)
    (gen : Nat → Nat → Except String String) (categories_file roles_file : String)
    (k1 k2 : Option String) :
    chooseAuth env k1 = chooseAuth env k2 ∧
    main_model env fs gen categories_file roles_file k1 =
      main_model env fs gen categories_file roles_file k2 :=
  ⟨rfl, rfl⟩

/-! Column lengths in the general (possibly degenerate) case. -/

theorem cellsFor_length (g : Nat → Except String String) (k : String) :
    ∀ (cs : List CategoryRow) (j : Nat), (cellsFor g j cs k).length = countName cs k := by
  intro cs
  induction cs with
  | nil =>
    intro j
    rfl
  | cons c cs ih =>
    intro j
    rw [cellsFor, List.length_append, ih (j+1)]
    unfold countName
    rw [List.filter_cons]
    by_cases h : c.category = k
    · simp [h]
      omega
    · simp [h]

theorem rowContrib_length (gen : Nat → Nat → Except String String) (cats : List CategoryRow)
    (i : Nat) (r : RoleRow) (k : String) :
    (rowContrib gen cats i r k).length = weightOf cats k := by
  unfold rowContrib weightOf
  rw [List.length_append, List.length_append, cellsFor_length]
  by_cases h1 : k = "Role"
  · by_cases h2 : k = "Job Description"
    · rw [h1] at h2
      exact absurd h2 (by decide)
    · simp [h1, h2]
  · by_cases h2 : k = "Job Description"
    · simp [h1, h2]
    · simp [h1, h2]

theorem rowsContrib_length (gen : Nat → Nat → Except String String) (cats : List CategoryRow)
    (k : String) : ∀ (rs : List RoleRow) (i : Nat),
    (rowsContrib gen cats i rs k).length = rs.length * weightOf cats k := by
  intro rs
  induction rs with
  | nil =>
    intro i
    simp [rowsContrib]
  | cons r rs ih =>
    intro i
    rw [rowsContrib, List.length_append, rowContrib_length, ih (i+1), List.length_cons]
    ring

theorem insKeys_prefix : ∀ (cs : List CategoryRow) (ks : List String),
    ∃ ext, insKeys ks cs = ks ++ ext := by
  intro cs
  induction cs with
  | nil =>
    intro ks
    exact ⟨[], by simp [insKeys]⟩
  | cons c cs ih =>
    intro ks
    rw [insKeys]
    by_cases h : c.category ∈ ks
    · rw [if_pos h]
      exact ih ks
    · rw [if_neg h]
      obtain ⟨ext, hext⟩ := ih (ks ++ [c.category])
      exact ⟨c.category :: ext, by rw [hext, List.append_assoc]; rfl⟩

theorem mem_insKeys_of_mem (cs : List CategoryRow) (ks : List String) (k : String)
    (h : k ∈ ks) : k ∈ insKeys ks cs := by
  obtain ⟨ext, hext⟩ := insKeys_prefix cs ks
  rw [hext]
  exact List.mem_append_left _ h

theorem mem_insKeys_of_name : ∀ (cs : List CategoryRow) (ks : List String) (c : CategoryRow),
    c ∈ cs → c.category ∈ insKeys ks cs := by
  intro cs
  induction cs with
  | nil =>
    intro ks c hc
    cases hc
  | cons c0 cs ih =>
    intro ks c hc
    rw [insKeys]
    rcases List.mem_cons.mp hc with hc | hc
    · subst hc
      apply mem_insKeys_of_mem
      by_cases h : c.category ∈ ks
      · rw [if_pos h]
        exact h
      · rw [if_neg h]
        simp
    · exact ih _ c hc

theorem weightOf_role (cats : List CategoryRow) :
    weightOf cats "Role" = countName cats "Role" + 1 := by
  unfold weightOf
  rw [if_pos rfl, if_neg (by decide)]
  omega

theorem weightOf_jd (cats : List CategoryRow) :
    weightOf cats "Job Description" = countName cats "Job Description" + 1 := by
  unfold weightOf
  rw [if_neg (by decide), if_pos rfl]
  omega

theorem weightOf_other (cats : List CategoryRow) (k : String)
    (hR : k ≠ "Role") (hJ : k ≠ "Job Description") :
    weightOf cats k = countName cats k := by
  unfold weightOf
  rw [if_neg hR, if_neg hJ]
  omega

theorem exists_unbalanced_key (cats : List CategoryRow) (hnb : ¬ balancedTable cats) :
    ∃ k, k ∈ keyList cats ∧ k ≠ "Role" ∧ weightOf cats k ≠ weightOf cats "Role" := by
  by_cases hc : countName cats "Role" = countName cats "Job Description"
  · unfold balancedTable at hnb
    push_neg at hnb
    obtain ⟨k, hk, hkR, hkJ, hkc⟩ := hnb hc
    obtain ⟨c, hcmem, hcat⟩ := List.mem_map.mp hk
    refine ⟨k, ?_, hkR, ?_⟩
    · rw [← hcat]
      exact mem_insKeys_of_name cats _ c hcmem
    · rw [weightOf_other cats k hkR hkJ, weightOf_role]
      exact hkc
  · refine ⟨"Job Description", ?_, by decide, ?_⟩
    · exact mem_insKeys_of_mem cats _ _ (by simp)
    · rw [weightOf_jd, weightOf_role]
      omega

theorem pdDataFrame_error (p : String × List String) (ps : Table)
    (h : ¬ (ps.all (fun q => q.2.length == p.2.length) = true)) :
    pdDataFrame (p :: ps) = .error "All arrays must be of the same length" := by
  simp only [pdDataFrame]
  rw [if_neg h]

/-- C10 (amended): when the loaded category table has duplicate names or a
category named `Role` or `Job Description`, there is at least one role,
and the per-column lengths cannot coincide (the non-balanced case), the
`pd.DataFrame` assembly raises, the run aborts with exit code 1, and no
output file is written. -/
theorem invalid_categories_abort (env : String → Option String) (fs : String → Option Sheet)
    (gen : Nat → Nat → Except String String) (categories_file roles_file : String)
    (api_key : Option String) (catsSheet rolesSheet : Sheet)
    (h1 : load_excel_data fs categories_file catColumns = .ok catsSheet)
    (h2 : load_excel_data fs roles_file roleColumns = .ok rolesSheet)
    (hinv : ¬ ((catsSheet.rows.map toCategoryRow).map (fun c => c.category)).Nodup ∨
      "Role" ∈ (catsSheet.rows.map toCategoryRow).map (fun c => c.category) ∨
      "Job Description" ∈ (catsSheet.rows.map toCategoryRow).map (fun c => c.category))
    (hroles : rolesSheet.rows ≠ [])
    (hnb : ¬ balancedTable (catsSheet.rows.map toCategoryRow)) :
    (∃ e, generate_table gen (catsSheet.rows.map toCategoryRow)
      (rolesSheet.rows.map toRoleRow) = .error e) ∧
    (main_model env fs gen categories_file roles_file api_key).exitCode = 1 ∧
    (main_model env fs gen categories_file roles_file api_key).outputWritten = false ∧
    (main_model env fs gen categories_file roles_file api_key).output = none := by
  have htab : pdDataFrame (build_output_data gen (catsSheet.rows.map toCategoryRow)
      (rolesSheet.rows.map toRoleRow)) = .error "All arrays must be of the same length" := by
    obtain ⟨k, hkmem, hkR, hkw⟩ := exists_unbalanced_key (catsSheet.rows.map toCategoryRow) hnb
    obtain ⟨ext, hext⟩ := insKeys_prefix (catsSheet.rows.map toCategoryRow)
      ["Role", "Job Description"]
    have hkl : keyList (catsSheet.rows.map toCategoryRow) = "Role" :: "Job Description" :: ext := by
      unfold keyList
      rw [hext]
      rfl
    rw [build_output_data_eq, hkl, List.map_cons, List.map_cons]
    apply pdDataFrame_error
    intro hall
    rw [List.all_eq_true] at hall
    have hkmem2 : k ∈ ("Job Description" :: ext) := by
      rw [hkl] at hkmem
      rcases List.mem_cons.mp hkmem with h | h
      · exact absurd h hkR
      · exact h
    have hkent : (k, rowsContrib gen (catsSheet.rows.map toCategoryRow) 0
        (rolesSheet.rows.map toRoleRow) k) ∈
        ("Job Description", rowsContrib gen (catsSheet.rows.map toCategoryRow) 0
          (rolesSheet.rows.map toRoleRow) "Job Description") ::
          ext.map (fun k2 => (k2, rowsContrib gen (catsSheet.rows.map toCategoryRow) 0
            (rolesSheet.rows.map toRoleRow) k2)) := by
      rcases List.mem_cons.mp hkmem2 with h | h
      · rw [h]
        exact List.mem_cons_self _ _
      · exact List.mem_cons_of_mem _ (List.mem_map.mpr ⟨k, h, rfl⟩)
    have hlen := hall _ hkent
    simp only [beq_iff_eq] at hlen
    rw [rowsContrib_length, rowsContrib_length] at hlen
    have hn : (rolesSheet.rows.map toRoleRow).length ≠ 0 := by
      rw [List.length_map]
      intro hz
      exact hroles (List.length_eq_zero.mp hz)
    exact hkw (Nat.eq_of_mul_eq_mul_left (Nat.pos_of_ne_zero hn) hlen)
  have hgen : generate_performance_goals_model env fs gen categories_file roles_file api_key =
      .error "All arrays must be of the same length" := by
    unfold generate_performance_goals_model generate_after_load
    rw [h1, h2]
    dsimp only
    rw [htab]
  refine ⟨⟨"All arrays must be of the same length", by unfold generate_table; exact htab⟩, ?_, ?_, ?_⟩
  · unfold main_model
    rw [hgen]
  · unfold main_model
    rw [hgen]
  · unfold main_model
    rw [hgen]

/-- C10 (counterexample): categories named exactly `Role` and
`Job Description` (each once) with one role satisfy the claim's
hypothesis, yet every per-column list ends up with two entries, so the
`pd.DataFrame` assembly succeeds and the run exits 0 with the (malformed,
two-row) output file written — the claim's unconditional "raises" is
false. -/
theorem reserved_categories_balanced_cex :
    generate_table (fun _ _ => .ok "G")
        [⟨"Role", "x", "1"⟩, ⟨"Job Description", "y", "1"⟩] [⟨"r", "j"⟩] =
      .ok (["Role", "Job Description"], [["r", "j"], ["G", "G"]]) ∧
    (main_model (fun _ => none)
      (fun p => if p = "c.xlsx" then
          some ⟨["Category", "Description", "Number_of_Goals"],
            [["Role", "x", "1"], ["Job Description", "y", "1"]]⟩
        else if p = "r.xlsx" then some ⟨["Role", "Job Description"], [["r", "j"]]⟩
        else none)
      (fun _ _ => .ok "G") "c.xlsx" "r.xlsx" none).exitCode = 0 ∧
    (main_model (fun _ => none)
      (fun p => if p = "c.xlsx" then
          some ⟨["Category", "Description", "Number_of_Goals"],
            [["Role", "x", "1"], ["Job Description", "y", "1"]]⟩
        else if p = "r.xlsx" then some ⟨["Role", "Job Description"], [["r", "j"]]⟩
        else none)
      (fun _ _ => .ok "G") "c.xlsx" "r.xlsx" none).outputWritten = true :=
  ⟨rfl, rfl, rfl⟩

/-- C10 (witness): the amended theorem applied to a concrete duplicated
category table (two rows named `A`) and one role. -/
theorem invalid_categories_abort_witness :
    (∃ e, generate_table (fun _ _ => .ok "G")
      ((⟨catColumns, [["A", "d", "1"], ["A", "d", "1"]]⟩ : Sheet).rows.map toCategoryRow)
      ((⟨roleColumns, [["r", "j"]]⟩ : Sheet).rows.map toRoleRow) = .error e) ∧
    (main_model (fun _ => none)
      (fun p => if p = "c.xlsx" then
          some ⟨["Category", "Description", "Number_of_Goals"],
            [["A", "d", "1"], ["A", "d", "1"]]⟩
        else if p = "r.xlsx" then some ⟨["Role", "Job Description"], [["r", "j"]]⟩
        else none)
      (fun _ _ => .ok "G") "c.xlsx" "r.xlsx" none).exitCode = 1 ∧
    (main_model (fun _ => none)
      (fun p => if p = "c.xlsx" then
          some ⟨["Category", "Description", "Number_of_Goals"],
            [["A", "d", "1"], ["A", "d", "1"]]⟩
        else if p = "r.xlsx" then some ⟨["Role", "Job Description"], [["r", "j"]]⟩
        else none)
      (fun _ _ => .ok "G") "c.xlsx" "r.xlsx" none).outputWritten = false ∧
    (main_model (fun _ => none)
      (fun p => if p = "c.xlsx" then
          some ⟨["Category", "Description", "Number_of_Goals"],
            [["A", "d", "1"], ["A", "d", "1"]]⟩
        else if p = "r.xlsx" then some ⟨["Role", "Job Description"], [["r", "j"]]⟩
        else none)
      (fun _ _ => .ok "G") "c.xlsx" "r.xlsx" none).output = none :=
  invalid_categories_abort (fun _ => none)
    (fun p => if p = "c.xlsx" then
        some ⟨["Category", "Description", "Number_of_Goals"],
          [["A", "d", "1"], ["A", "d", "1"]]⟩
      else if p = "r.xlsx" then some ⟨["Role", "Job Description"], [["r", "j"]]⟩
      else none)
    (fun _ _ => .ok "G") "c.xlsx" "r.xlsx" none
    ⟨catColumns, [["A", "d", "1"], ["A", "d", "1"]]⟩ ⟨roleColumns, [["r", "j"]]⟩
    rfl rfl (Or.inl (by decide)) (by decide) (by decide)
